import Mathlib

/-!
Verification development for the bitknotsrs node core.

This file gives a shallow embedding of the parts of the repository that the
claims are about:
  * `src/error.rs` — the `StorageError` and `EventError` taxonomies;
  * `src/storage.rs` — the column-family key/value store (`Storage::put`,
    `get`, `delete`, `exists`, `get_cf`, and the `store_block` /
    `get_block` / `store_transaction` / `get_transaction` wrappers);
  * `src/actors/storage.rs` — the storage actor's `StoreBlock` / `GetBlock` /
    `AddTransaction` / `GetTransaction` handlers, which serialize entities
    with the consensus wire codec and key them by their hash;
  * `src/actors/chain.rs` and `src/actors/mempool.rs` — the (stubbed)
    chain and mempool actor handlers;
  * `src/events.rs` — `EventManager::publish` and its aggregate-failure rule.

Machine integers (`u32`, `u64`) are embedded as `Nat` with explicit bounds in
well-formedness predicates; byte strings are `List Nat`; RocksDB is embedded
as a total map from (column family, key) to an optional value, with the I/O
layer assumed fault-free (the claims under study are about the logic layered
on top of it, not about disk faults).
-/

/-- Byte strings, as in the Rust `&[u8]` / `Vec<u8>`. -/
abbrev Bytes := List Nat

/-! ## `src/error.rs` — error taxonomy -/

/-- `StorageError` from `src/error.rs` (the `RocksDb` payload is embedded as
its message string). -/
inductive StorageError where
  | RocksDb (msg : String)
  | DatabaseNotFound (path : String)
  | Corruption (component : String)
  | Serialization (msg : String)
deriving DecidableEq

/-- `EventError` from `src/error.rs`. -/
inductive EventError where
  | PublishFailed (msg : String)
  | PublisherUnavailable (msg : String)
  | KubernetesApi (msg : String)
  | EventSerialization (msg : String)
deriving DecidableEq

/-! ## `src/storage.rs` — column-family store -/

/-- `CF_BLOCKS` from `src/storage.rs`. -/
def CF_BLOCKS : String := "blocks"

/-- `CF_TRANSACTIONS` from `src/storage.rs`. -/
def CF_TRANSACTIONS : String := "transactions"

/-- `CF_UTXOS` from `src/storage.rs`. -/
def CF_UTXOS : String := "utxos"

/-- `CF_CHAIN_STATE` from `src/storage.rs`. -/
def CF_CHAIN_STATE : String := "chain_state"

/-- `CF_PEERS` from `src/storage.rs`. -/
def CF_PEERS : String := "peers"

/-- `CF_MEMPOOL` from `src/storage.rs`. -/
def CF_MEMPOOL : String := "mempool"

/-- The column families opened by `Storage::new` (`src/storage.rs`,
the `cfs` descriptor list): this set is fixed at startup. -/
def columnFamilyNames : List String :=
  [CF_BLOCKS, CF_TRANSACTIONS, CF_UTXOS, CF_CHAIN_STATE, CF_MEMPOOL, CF_PEERS]

/-- The `Storage` struct of `src/storage.rs`: the RocksDB database is
embedded as a total map from (column family name, key) to an optional
stored value. -/
structure Storage where
  db : String → Bytes → Option Bytes

/-- `Storage::get_cf` (`src/storage.rs` lines 221–226): look up the column
family handle; an unknown name is a `Corruption` error. -/
def Storage.get_cf (_s : Storage) (cf_name : String) : Except StorageError String :=
  if cf_name ∈ columnFamilyNames then .ok cf_name
  else .error (.Corruption ("Column family '" ++ cf_name ++ "' not found"))

/-- `Storage::put` (`src/storage.rs` lines 77–82): resolve the column family,
then write the value under the key (RocksDB `put_cf`, an atomic single-key
overwrite-or-create). -/
def Storage.put (s : Storage) (cf_name : String) (key value : Bytes) :
    Except StorageError Storage :=
  match s.get_cf cf_name with
  | .error e => .error e
  | .ok cf => .ok { db := fun c k => if c = cf ∧ k = key then some value else s.db c k }

/-- `Storage::get` (`src/storage.rs` lines 84–88): resolve the column family,
then read the key; an absent key is `Ok(None)`. -/
def Storage.get (s : Storage) (cf_name : String) (key : Bytes) :
    Except StorageError (Option Bytes) :=
  match s.get_cf cf_name with
  | .error e => .error e
  | .ok cf => .ok (s.db cf key)

/-- `Storage::delete` (`src/storage.rs` lines 90–95): resolve the column
family, then remove the key (RocksDB `delete_cf`, which succeeds whether or
not the key is present). -/
def Storage.delete (s : Storage) (cf_name : String) (key : Bytes) :
    Except StorageError Storage :=
  match s.get_cf cf_name with
  | .error e => .error e
  | .ok cf => .ok { db := fun c k => if c = cf ∧ k = key then none else s.db c k }

/-- `Storage::exists` (`src/storage.rs` lines 97–104): performs the same
`get_cf` + `get_cf` lookup as `Storage::get` and reports whether a value is
present. -/
def Storage.exists (s : Storage) (cf_name : String) (key : Bytes) :
    Except StorageError Bool :=
  match s.get_cf cf_name with
  | .error e => .error e
  | .ok cf =>
    match s.db cf key with
    | some _ => .ok true
    | none => .ok false

/-- `Storage::store_block` (`src/storage.rs`): `put` into `CF_BLOCKS`. -/
def Storage.store_block (s : Storage) (block_hash block_data : Bytes) :
    Except StorageError Storage :=
  s.put CF_BLOCKS block_hash block_data

/-- `Storage::get_block` (`src/storage.rs`): `get` from `CF_BLOCKS`. -/
def Storage.get_block (s : Storage) (block_hash : Bytes) :
    Except StorageError (Option Bytes) :=
  s.get CF_BLOCKS block_hash

/-- `Storage::store_transaction` (`src/storage.rs`): `put` into
`CF_TRANSACTIONS`. -/
def Storage.store_transaction (s : Storage) (txid tx_data : Bytes) :
    Except StorageError Storage :=
  s.put CF_TRANSACTIONS txid tx_data

/-- `Storage::get_transaction` (`src/storage.rs`): `get` from
`CF_TRANSACTIONS`. -/
def Storage.get_transaction (s : Storage) (txid : Bytes) :
    Except StorageError (Option Bytes) :=
  s.get CF_TRANSACTIONS txid

/-- The empty database: every key of every region is absent (the state of a
fresh node after `Storage::new`). -/
def Storage.empty : Storage := { db := fun _ _ => none }

/-! ## Claims C4, C6, C8, C10 — the storage contract -/

/-- C4: for every region in the fixed region set, every key, and every value,
`put(region, key, value)` followed by `get(region, key)` with no intervening
write returns exactly the bytes that were written. -/
theorem put_then_get_returns_value (s : Storage) (region : String)
    (key value : Bytes) (hr : region ∈ columnFamilyNames) :
    ∃ s' : Storage, s.put region key value = .ok s' ∧
      s'.get region key = .ok (some value) := by
  refine ⟨{ db := fun c k => if c = region ∧ k = key then some value else s.db c k }, ?_, ?_⟩
  · simp [Storage.put, Storage.get_cf, hr]
  · simp [Storage.get, Storage.get_cf, hr]

/-- C4 witness: a concrete `put`/`get` round trip on region `"blocks"`. -/
theorem put_then_get_returns_value_witness :
    ∃ s' : Storage, Storage.empty.put "blocks" [1, 2] [3, 4, 5] = .ok s' ∧
      s'.get "blocks" [1, 2] = .ok (some [3, 4, 5]) :=
  put_then_get_returns_value Storage.empty "blocks" [1, 2] [3, 4, 5] (by decide)

/-- C6: every storage operation (`get`, `put`, `delete`, `exists`) invoked
with a region name outside the fixed set resolves no column family handle and
fails with the `Corruption` error produced by `Storage::get_cf`; none of them
succeeds or treats the unknown region as empty. -/
theorem unknown_region_always_fails (s : Storage) (region : String)
    (key value : Bytes) (hr : region ∉ columnFamilyNames) :
    s.get region key =
        .error (.Corruption ("Column family '" ++ region ++ "' not found")) ∧
      s.put region key value =
        .error (.Corruption ("Column family '" ++ region ++ "' not found")) ∧
      s.delete region key =
        .error (.Corruption ("Column family '" ++ region ++ "' not found")) ∧
      s.exists region key =
        .error (.Corruption ("Column family '" ++ region ++ "' not found")) := by
  refine ⟨?_, ?_, ?_, ?_⟩ <;>
    simp [Storage.get, Storage.put, Storage.delete, Storage.exists,
      Storage.get_cf, hr]

/-- C6 witness: all four operations fail on the unknown region `"bogus"`. -/
theorem unknown_region_always_fails_witness :
    Storage.empty.get "bogus" [0] =
        .error (.Corruption ("Column family '" ++ "bogus" ++ "' not found")) ∧
      Storage.empty.put "bogus" [0] [1] =
        .error (.Corruption ("Column family '" ++ "bogus" ++ "' not found")) ∧
      Storage.empty.delete "bogus" [0] =
        .error (.Corruption ("Column family '" ++ "bogus" ++ "' not found")) ∧
      Storage.empty.exists "bogus" [0] =
        .error (.Corruption ("Column family '" ++ "bogus" ++ "' not found")) :=
  unknown_region_always_fails Storage.empty "bogus" [0] [1] (by decide)

/-- C8: for every region in the fixed set and every key (present or absent),
`delete(region, key)` succeeds, and a `get(region, key)` performed after the
delete returns not-found. -/
theorem delete_succeeds_and_get_not_found (s : Storage) (region : String)
    (key : Bytes) (hr : region ∈ columnFamilyNames) :
    ∃ s' : Storage, s.delete region key = .ok s' ∧
      s'.get region key = .ok none := by
  refine ⟨{ db := fun c k => if c = region ∧ k = key then none else s.db c k }, ?_, ?_⟩
  · simp [Storage.delete, Storage.get_cf, hr]
  · simp [Storage.get, Storage.get_cf, hr]

/-- C8 witness: deleting an absent key on region `"mempool"` succeeds and a
subsequent `get` returns not-found. -/
theorem delete_succeeds_and_get_not_found_witness :
    ∃ s' : Storage, Storage.empty.delete "mempool" [9] = .ok s' ∧
      s'.get "mempool" [9] = .ok none :=
  delete_succeeds_and_get_not_found Storage.empty "mempool" [9] (by decide)

/-- C10: for every storage state, region and key, `exists` reports `true`
exactly when `get` returns a value and `false` exactly when `get` returns
not-found (it performs the same lookup as `get`). -/
theorem exists_agrees_with_get (s : Storage) (region : String) (key : Bytes) :
    (s.exists region key = .ok true ↔
        ∃ v : Bytes, s.get region key = .ok (some v)) ∧
      (s.exists region key = .ok false ↔ s.get region key = .ok none) := by
  by_cases hr : region ∈ columnFamilyNames
  · cases hv : s.db region key <;>
      simp [Storage.exists, Storage.get, Storage.get_cf, hr, hv]
  · simp [Storage.exists, Storage.get, Storage.get_cf, hr]

/-! ## `src/events.rs` — event publishing -/

/-- One entry of `EventManager.publishers` (`src/events.rs`): a boxed
`EventPublisher` capability. `enabled` embeds what `is_enabled()` returns,
and `pubError` embeds the outcome of `publish(&event).await` for the event
being published (`none` = delivery succeeded, `some e` = it failed with
`e`). -/
structure PublisherModel where
  enabled : Bool
  pubError : Option EventError
deriving DecidableEq

namespace EventManager

/-- The error-collecting loop of `EventManager::publish` (`src/events.rs`
lines 128–137): every enabled publisher is asked to deliver the event, and
the failures are accumulated in order in the `errors` vector. -/
def collectErrors (publishers : List PublisherModel) : List EventError :=
  (publishers.filter (fun p => p.enabled)).filterMap (fun p => p.pubError)

/-- `EventManager::publish` (`src/events.rs` lines 116–146): run the
delivery loop, then fail with an aggregate `PublishFailed` error exactly
when the `errors` vector is non-empty and its length equals the length of
the whole publisher list; otherwise return `Ok(())`. Publishing never
touches ledger state: the function's input is only the publisher list and
the event, so no state change is (or can be) rolled back here. -/
def publish (publishers : List PublisherModel) : Except EventError Unit :=
  let errors := collectErrors publishers
  if errors ≠ [] ∧ errors.length = publishers.length then
    .error (.PublishFailed "All publishers failed")
  else
    .ok ()

end EventManager

/-- Helper: a `filterMap` keeps the full length of the list exactly when the
function returns `some` on every element. -/
theorem filterMap_length_eq_iff {α β : Type} (f : α → Option β) (l : List α) :
    (l.filterMap f).length = l.length ↔ ∀ a ∈ l, (f a).isSome := by
  induction l with
  | nil => simp
  | cons x xs ih =>
    cases hx : f x with
    | none =>
      have hle := List.length_filterMap_le f xs
      simp [hx]
      omega
    | some b =>
      simp [hx, ih]

/-- C7: for a publisher list in which every publisher is enabled (the only
lists `EventManager::new` builds, since each publisher is installed only
when its config `enabled` flag — the flag `is_enabled()` returns — is set),
`publish` returns the aggregate failure exactly when the list is non-empty
and every publisher failed to deliver; if at least one publisher succeeds,
or none is configured, it returns success. `publish` receives no ledger
state at all, so a publisher failure cannot undo the state change that
triggered the event. -/
theorem publish_fails_iff_all_publishers_fail (publishers : List PublisherModel)
    (hen : ∀ p ∈ publishers, p.enabled = true) :
    ((∃ e : EventError, EventManager.publish publishers = .error e) ↔
        (publishers ≠ [] ∧ ∀ p ∈ publishers, p.pubError.isSome)) ∧
      (EventManager.publish publishers = .ok () ↔
        (publishers = [] ∨ ∃ p ∈ publishers, p.pubError = none)) := by
  have hcoll : EventManager.collectErrors publishers =
      publishers.filterMap (fun p => p.pubError) := by
    rw [EventManager.collectErrors, List.filter_eq_self.mpr (by simpa using hen)]
  have hpub : EventManager.publish publishers =
      if (publishers.filterMap (fun p => p.pubError) ≠ [] ∧
          (publishers.filterMap (fun p => p.pubError)).length = publishers.length)
      then .error (.PublishFailed "All publishers failed") else .ok () := by
    simp only [EventManager.publish, hcoll]
  have hCiff : (publishers.filterMap (fun p => p.pubError) ≠ [] ∧
        (publishers.filterMap (fun p => p.pubError)).length = publishers.length) ↔
      (publishers ≠ [] ∧ ∀ p ∈ publishers, p.pubError.isSome) := by
    constructor
    · rintro ⟨hne, hlen⟩
      refine ⟨?_, (filterMap_length_eq_iff _ _).mp hlen⟩
      rintro rfl
      exact hne rfl
    · rintro ⟨hne, hall⟩
      refine ⟨?_, (filterMap_length_eq_iff _ _).mpr hall⟩
      intro h0
      apply hne
      have hlen0 : (publishers.filterMap (fun p => p.pubError)).length = 0 := by
        rw [h0]; rfl
      rw [(filterMap_length_eq_iff _ _).mpr hall] at hlen0
      exact List.length_eq_zero.mp hlen0
  by_cases hC : (publishers.filterMap (fun p => p.pubError) ≠ [] ∧
      (publishers.filterMap (fun p => p.pubError)).length = publishers.length)
  · rw [hpub, if_pos hC]
    constructor
    · constructor
      · intro _
        exact hCiff.mp hC
      · intro _
        exact ⟨.PublishFailed "All publishers failed", rfl⟩
    · constructor
      · intro h
        exact absurd h (by simp)
      · rintro (rfl | ⟨p, hp, hnone⟩)
        · exact absurd rfl (hCiff.mp hC).1
        · have := (hCiff.mp hC).2 p hp
          rw [hnone] at this
          exact absurd this (by simp)
  · rw [hpub, if_neg hC]
    constructor
    · constructor
      · rintro ⟨e, he⟩
        exact absurd he (by simp)
      · intro hR
        exact absurd (hCiff.mpr hR) hC
    · constructor
      · intro _
        rw [hCiff] at hC
        rcases Decidable.em (publishers = []) with hp | hp
        · exact Or.inl hp
        · push_neg at hC
          obtain ⟨p, hpmem, hpnone⟩ := hC hp
          exact Or.inr ⟨p, hpmem, Option.not_isSome_iff_eq_none.mp hpnone⟩
      · intro _
        rfl

/-- C7 witness: with two enabled publishers of which only the first fails,
`publish` succeeds, and the failure characterization agrees. -/
theorem publish_fails_iff_all_publishers_fail_witness :
    ((∃ e : EventError, EventManager.publish
          [⟨true, some (.PublishFailed "down")⟩, ⟨true, none⟩] = .error e) ↔
        (([⟨true, some (.PublishFailed "down")⟩, ⟨true, none⟩] :
            List PublisherModel) ≠ [] ∧
          ∀ p ∈ ([⟨true, some (.PublishFailed "down")⟩, ⟨true, none⟩] :
            List PublisherModel), p.pubError.isSome)) ∧
      (EventManager.publish
          [⟨true, some (.PublishFailed "down")⟩, ⟨true, none⟩] = .ok () ↔
        (([⟨true, some (.PublishFailed "down")⟩, ⟨true, none⟩] :
            List PublisherModel) = [] ∨
          ∃ p ∈ ([⟨true, some (.PublishFailed "down")⟩, ⟨true, none⟩] :
            List PublisherModel), p.pubError = none)) :=
  publish_fails_iff_all_publishers_fail
    [⟨true, some (.PublishFailed "down")⟩, ⟨true, none⟩] (by decide)

/-! ## The consensus wire codec

`src/actors/storage.rs` persists blocks and transactions through
`bitcoin::consensus::serialize` / `deserialize`, the fixed binary encoding of
the Bitcoin peer wire protocol, provided by the external `bitcoin` crate (not
part of this repository's sources). The definitions below embed that codec.

Modelled from the spec: "Persisted block and transaction payloads use a
fixed, versioned binary encoding (the same encoding used on the peer wire
protocol) so stored bytes are directly re-parseable without a translation
step." The embedding follows the (legacy, pre-witness) Bitcoin wire layout:
little-endian fixed-width integers, CompactSize-prefixed variable-length
data, and the standard field order for transactions and blocks; witness data
is omitted from the model.

Every reader consumes a prefix of the byte string and returns the parsed
value together with the remaining bytes, or `none` on malformed input; a
top-level `deserialize` additionally requires that all input is consumed,
as the crate's `deserialize` does.
-/

/-- Read a fixed number of bytes. -/
def readBytesN : Nat → Bytes → Option (Bytes × Bytes)
  | 0, s => some ([], s)
  | _ + 1, [] => none
  | n + 1, b :: s =>
    match readBytesN n s with
    | some (bs, rest) => some (b :: bs, rest)
    | none => none

/-- Little-endian 16-bit encoder. -/
def encodeU16 (v : Nat) : Bytes := [v % 256, v / 256 % 256]

/-- Little-endian 16-bit reader. -/
def readU16 : Bytes → Option (Nat × Bytes)
  | b0 :: b1 :: r => some (b0 + 256 * b1, r)
  | _ => none

/-- Little-endian 32-bit encoder. -/
def encodeU32 (v : Nat) : Bytes :=
  [v % 256, v / 256 % 256, v / 65536 % 256, v / 16777216 % 256]

/-- Little-endian 32-bit reader. -/
def readU32 : Bytes → Option (Nat × Bytes)
  | b0 :: b1 :: b2 :: b3 :: r =>
    some (b0 + 256 * b1 + 65536 * b2 + 16777216 * b3, r)
  | _ => none

/-- Little-endian 64-bit encoder. -/
def encodeU64 (v : Nat) : Bytes :=
  [v % 256, v / 256 % 256, v / 65536 % 256, v / 16777216 % 256,
   v / 4294967296 % 256, v / 1099511627776 % 256,
   v / 281474976710656 % 256, v / 72057594037927936 % 256]

/-- Little-endian 64-bit reader. -/
def readU64 : Bytes → Option (Nat × Bytes)
  | b0 :: b1 :: b2 :: b3 :: b4 :: b5 :: b6 :: b7 :: r =>
    some (b0 + 256 * b1 + 65536 * b2 + 16777216 * b3 + 4294967296 * b4 +
      1099511627776 * b5 + 281474976710656 * b6 + 72057594037927936 * b7, r)
  | _ => none

/-- CompactSize (wire VarInt) encoder. -/
def encodeVarInt (n : Nat) : Bytes :=
  if n < 253 then [n]
  else if n < 65536 then 253 :: encodeU16 n
  else if n < 4294967296 then 254 :: encodeU32 n
  else 255 :: encodeU64 n

/-- CompactSize (wire VarInt) reader. -/
def readVarInt : Bytes → Option (Nat × Bytes)
  | [] => none
  | b :: r =>
    if b < 253 then some (b, r)
    else if b = 253 then readU16 r
    else if b = 254 then readU32 r
    else readU64 r

/-- Length-prefixed byte string (script) encoder. -/
def encodeVarBytes (bs : Bytes) : Bytes := encodeVarInt bs.length ++ bs

/-- Length-prefixed byte string (script) reader. -/
def readVarBytes (s : Bytes) : Option (Bytes × Bytes) :=
  match readVarInt s with
  | some (n, s1) => readBytesN n s1
  | none => none

theorem readBytesN_append (l r : Bytes) :
    readBytesN l.length (l ++ r) = some (l, r) := by
  induction l with
  | nil => rfl
  | cons b bs ih => simp [readBytesN, ih]

theorem readU16_enc (v : Nat) (h : v < 65536) (r : Bytes) :
    readU16 (encodeU16 v ++ r) = some (v, r) := by
  simp [readU16, encodeU16]
  omega

theorem readU32_enc (v : Nat) (h : v < 4294967296) (r : Bytes) :
    readU32 (encodeU32 v ++ r) = some (v, r) := by
  simp [readU32, encodeU32]
  omega

theorem readU64_enc (v : Nat) (h : v < 18446744073709551616) (r : Bytes) :
    readU64 (encodeU64 v ++ r) = some (v, r) := by
  simp [readU64, encodeU64]
  omega

theorem readVarInt_enc (n : Nat) (h : n < 18446744073709551616) (r : Bytes) :
    readVarInt (encodeVarInt n ++ r) = some (n, r) := by
  by_cases h1 : n < 253
  · simp [encodeVarInt, readVarInt, h1]
  · by_cases h2 : n < 65536
    · simp [encodeVarInt, readVarInt, h1, h2, readU16_enc n h2 r]
    · by_cases h3 : n < 4294967296
      · simp [encodeVarInt, readVarInt, h1, h2, h3, readU32_enc n h3 r]
      · simp [encodeVarInt, readVarInt, h1, h2, h3, readU64_enc n h r]

theorem readVarBytes_enc (bs : Bytes) (h : bs.length < 18446744073709551616)
    (r : Bytes) : readVarBytes (encodeVarBytes bs ++ r) = some (bs, r) := by
  rw [readVarBytes, encodeVarBytes, List.append_assoc,
    readVarInt_enc bs.length h (bs ++ r)]
  exact readBytesN_append bs r

/-- An outpoint: a reference to a prior output by transaction hash and
output index (`bitcoin::OutPoint`). -/
structure OutPoint where
  txid : Bytes
  vout : Nat
deriving DecidableEq

/-- A transaction input (`bitcoin::TxIn`; witness omitted from the model). -/
structure TxIn where
  previous_output : OutPoint
  script_sig : Bytes
  sequence : Nat
deriving DecidableEq

/-- A transaction output (`bitcoin::TxOut`). -/
structure TxOut where
  value : Nat
  script_pubkey : Bytes
deriving DecidableEq

/-- A transaction (`bitcoin::Transaction`). -/
structure Transaction where
  version : Nat
  lock_time : Nat
  input : List TxIn
  output : List TxOut
deriving DecidableEq

/-- A block header (`bitcoin::block::Header`). -/
structure Header where
  version : Nat
  prev_blockhash : Bytes
  merkle_root : Bytes
  time : Nat
  bits : Nat
  nonce : Nat
deriving DecidableEq

/-- A block (`bitcoin::Block`). -/
structure Block where
  header : Header
  txdata : List Transaction
deriving DecidableEq

/-- Encode the concatenation of a list of items. -/
def encodeItems {α : Type} (f : α → Bytes) : List α → Bytes
  | [] => []
  | x :: xs => f x ++ encodeItems f xs

/-- Encode a CompactSize-counted list of items. -/
def encodeList {α : Type} (f : α → Bytes) (xs : List α) : Bytes :=
  encodeVarInt xs.length ++ encodeItems f xs

/-- Read a fixed number of items. -/
def readItems {α : Type} (g : Bytes → Option (α × Bytes)) :
    Nat → Bytes → Option (List α × Bytes)
  | 0, s => some ([], s)
  | n + 1, s =>
    match g s with
    | none => none
    | some (x, s1) =>
      match readItems g n s1 with
      | none => none
      | some (xs, s2) => some (x :: xs, s2)

/-- Read a CompactSize-counted list of items. -/
def readList {α : Type} (g : Bytes → Option (α × Bytes)) (s : Bytes) :
    Option (List α × Bytes) :=
  match readVarInt s with
  | none => none
  | some (n, s1) => readItems g n s1

/-- Wire encoding of an outpoint: 32-byte txid, then the output index. -/
def encodeOutPoint (o : OutPoint) : Bytes := o.txid ++ encodeU32 o.vout

/-- Wire reader for an outpoint. -/
def readOutPoint (s : Bytes) : Option (OutPoint × Bytes) :=
  match readBytesN 32 s with
  | none => none
  | some (txid, s1) =>
    match readU32 s1 with
    | none => none
    | some (vout, s2) => some ({ txid := txid, vout := vout }, s2)

/-- Wire encoding of a transaction input. -/
def encodeTxIn (i : TxIn) : Bytes :=
  encodeOutPoint i.previous_output ++ encodeVarBytes i.script_sig ++
    encodeU32 i.sequence

/-- Wire reader for a transaction input. -/
def readTxIn (s : Bytes) : Option (TxIn × Bytes) :=
  match readOutPoint s with
  | none => none
  | some (op, s1) =>
    match readVarBytes s1 with
    | none => none
    | some (sig, s2) =>
      match readU32 s2 with
      | none => none
      | some (sq, s3) =>
        some ({ previous_output := op, script_sig := sig, sequence := sq }, s3)

/-- Wire encoding of a transaction output. -/
def encodeTxOut (o : TxOut) : Bytes :=
  encodeU64 o.value ++ encodeVarBytes o.script_pubkey

/-- Wire reader for a transaction output. -/
def readTxOut (s : Bytes) : Option (TxOut × Bytes) :=
  match readU64 s with
  | none => none
  | some (v, s1) =>
    match readVarBytes s1 with
    | none => none
    | some (spk, s2) => some ({ value := v, script_pubkey := spk }, s2)

/-- Wire encoding of a transaction: version, inputs, outputs, lock time. -/
def encodeTx (tx : Transaction) : Bytes :=
  encodeU32 tx.version ++ encodeList encodeTxIn tx.input ++
    encodeList encodeTxOut tx.output ++ encodeU32 tx.lock_time

/-- Wire reader for a transaction. -/
def readTx (s : Bytes) : Option (Transaction × Bytes) :=
  match readU32 s with
  | none => none
  | some (v, s1) =>
    match readList readTxIn s1 with
    | none => none
    | some (ins, s2) =>
      match readList readTxOut s2 with
      | none => none
      | some (outs, s3) =>
        match readU32 s3 with
        | none => none
        | some (lt, s4) =>
          some ({ version := v, lock_time := lt, input := ins, output := outs }, s4)

/-- Wire encoding of a block header. -/
def encodeHeader (h : Header) : Bytes :=
  encodeU32 h.version ++ h.prev_blockhash ++ h.merkle_root ++
    encodeU32 h.time ++ encodeU32 h.bits ++ encodeU32 h.nonce

/-- Wire reader for a block header. -/
def readHeader (s : Bytes) : Option (Header × Bytes) :=
  match readU32 s with
  | none => none
  | some (v, s1) =>
    match readBytesN 32 s1 with
    | none => none
    | some (prev, s2) =>
      match readBytesN 32 s2 with
      | none => none
      | some (mr, s3) =>
        match readU32 s3 with
        | none => none
        | some (t, s4) =>
          match readU32 s4 with
          | none => none
          | some (b, s5) =>
            match readU32 s5 with
            | none => none
            | some (n, s6) =>
              some ({ version := v, prev_blockhash := prev, merkle_root := mr,
                      time := t, bits := b, nonce := n }, s6)

/-- Wire encoding of a block: header, then the counted transaction list. -/
def encodeBlock (b : Block) : Bytes :=
  encodeHeader b.header ++ encodeList encodeTx b.txdata

/-- Wire reader for a block. -/
def readBlock (s : Bytes) : Option (Block × Bytes) :=
  match readHeader s with
  | none => none
  | some (h, s1) =>
    match readList readTx s1 with
    | none => none
    | some (txs, s2) => some ({ header := h, txdata := txs }, s2)

/-- `bitcoin::consensus::serialize` for transactions. -/
def serializeTx (tx : Transaction) : Bytes := encodeTx tx

/-- `bitcoin::consensus::deserialize` for transactions: the whole input must
be consumed. -/
def deserializeTx (bs : Bytes) : Option Transaction :=
  match readTx bs with
  | some (tx, []) => some tx
  | _ => none

/-- `bitcoin::consensus::serialize` for blocks. -/
def serializeBlock (b : Block) : Bytes := encodeBlock b

/-- `bitcoin::consensus::deserialize` for blocks: the whole input must be
consumed. -/
def deserializeBlock (bs : Bytes) : Option Block :=
  match readBlock bs with
  | some (b, []) => some b
  | _ => none

/-- Well-formedness of an outpoint: the txid is 32 bytes and the index fits
in a `u32`, as `bitcoin::OutPoint` guarantees by construction. -/
abbrev OutPoint.wf (o : OutPoint) : Prop :=
  o.txid.length = 32 ∧ o.vout < 4294967296

/-- Well-formedness of a transaction input: field bounds of
`bitcoin::TxIn`. -/
abbrev TxIn.wf (i : TxIn) : Prop :=
  i.previous_output.wf ∧ i.script_sig.length < 18446744073709551616 ∧
    i.sequence < 4294967296

/-- Well-formedness of a transaction output: field bounds of
`bitcoin::TxOut`. -/
abbrev TxOut.wf (o : TxOut) : Prop :=
  o.value < 18446744073709551616 ∧
    o.script_pubkey.length < 18446744073709551616

/-- Well-formedness of a transaction: field bounds of
`bitcoin::Transaction`. -/
abbrev Transaction.wf (tx : Transaction) : Prop :=
  tx.version < 4294967296 ∧ tx.lock_time < 4294967296 ∧
    tx.input.length < 18446744073709551616 ∧
    tx.output.length < 18446744073709551616 ∧
    (∀ i ∈ tx.input, i.wf) ∧ (∀ o ∈ tx.output, o.wf)

/-- Well-formedness of a block header: field bounds of
`bitcoin::block::Header`. -/
abbrev Header.wf (h : Header) : Prop :=
  h.version < 4294967296 ∧ h.prev_blockhash.length = 32 ∧
    h.merkle_root.length = 32 ∧ h.time < 4294967296 ∧
    h.bits < 4294967296 ∧ h.nonce < 4294967296

/-- Well-formedness of a block: field bounds of `bitcoin::Block`. -/
abbrev Block.wf (b : Block) : Prop :=
  b.header.wf ∧ b.txdata.length < 18446744073709551616 ∧
    ∀ tx ∈ b.txdata, tx.wf

theorem readBytesN_exact (l : Bytes) (n : Nat) (h : l.length = n) (r : Bytes) :
    readBytesN n (l ++ r) = some (l, r) := h ▸ readBytesN_append l r

theorem readOutPoint_enc (o : OutPoint) (h : o.wf) (r : Bytes) :
    readOutPoint (encodeOutPoint o ++ r) = some (o, r) := by
  obtain ⟨h1, h2⟩ := h
  simp [readOutPoint, encodeOutPoint, List.append_assoc,
    readBytesN_exact o.txid 32 h1, readU32_enc o.vout h2]

theorem readTxIn_enc (i : TxIn) (h : i.wf) (r : Bytes) :
    readTxIn (encodeTxIn i ++ r) = some (i, r) := by
  obtain ⟨hop, hsig, hsq⟩ := h
  simp [readTxIn, encodeTxIn, List.append_assoc,
    readOutPoint_enc i.previous_output hop,
    readVarBytes_enc i.script_sig hsig, readU32_enc i.sequence hsq]

theorem readTxOut_enc (o : TxOut) (h : o.wf) (r : Bytes) :
    readTxOut (encodeTxOut o ++ r) = some (o, r) := by
  obtain ⟨hv, hspk⟩ := h
  simp [readTxOut, encodeTxOut, List.append_assoc, readU64_enc o.value hv,
    readVarBytes_enc o.script_pubkey hspk]

theorem readItems_enc {α : Type} (g : Bytes → Option (α × Bytes))
    (f : α → Bytes) (xs : List α)
    (henc : ∀ x ∈ xs, ∀ r : Bytes, g (f x ++ r) = some (x, r)) (r : Bytes) :
    readItems g xs.length (encodeItems f xs ++ r) = some (xs, r) := by
  induction xs with
  | nil => rfl
  | cons x xs ih =>
    have h1 := henc x (List.mem_cons_self x xs) (encodeItems f xs ++ r)
    have h2 := ih (fun y hy r => henc y (List.mem_cons_of_mem x hy) r)
    simp [readItems, encodeItems, List.append_assoc, h1, h2]

theorem readList_enc {α : Type} (g : Bytes → Option (α × Bytes))
    (f : α → Bytes) (xs : List α) (hlen : xs.length < 18446744073709551616)
    (henc : ∀ x ∈ xs, ∀ r : Bytes, g (f x ++ r) = some (x, r)) (r : Bytes) :
    readList g (encodeList f xs ++ r) = some (xs, r) := by
  have h1 := readVarInt_enc xs.length hlen (encodeItems f xs ++ r)
  have h2 := readItems_enc g f xs henc r
  simp [readList, encodeList, List.append_assoc, h1, h2]

theorem readTx_enc (tx : Transaction) (h : tx.wf) (r : Bytes) :
    readTx (encodeTx tx ++ r) = some (tx, r) := by
  obtain ⟨hv, hlt, hil, hol, hins, houts⟩ := h
  have h1 := readU32_enc tx.version hv
  have h2 := readList_enc readTxIn encodeTxIn tx.input hil
    (fun i hi r => readTxIn_enc i (hins i hi) r)
  have h3 := readList_enc readTxOut encodeTxOut tx.output hol
    (fun o ho r => readTxOut_enc o (houts o ho) r)
  have h4 := readU32_enc tx.lock_time hlt
  simp [readTx, encodeTx, List.append_assoc, h1, h2, h3, h4]

theorem readHeader_enc (h : Header) (hw : h.wf) (r : Bytes) :
    readHeader (encodeHeader h ++ r) = some (h, r) := by
  obtain ⟨hv, hp, hm, ht, hb, hn⟩ := hw
  simp [readHeader, encodeHeader, List.append_assoc, readU32_enc h.version hv,
    readBytesN_exact h.prev_blockhash 32 hp, readBytesN_exact h.merkle_root 32 hm,
    readU32_enc h.time ht, readU32_enc h.bits hb, readU32_enc h.nonce hn]

theorem readBlock_enc (b : Block) (h : b.wf) (r : Bytes) :
    readBlock (encodeBlock b ++ r) = some (b, r) := by
  obtain ⟨hh, hlen, htxs⟩ := h
  have h1 := readHeader_enc b.header hh
  have h2 := readList_enc readTx encodeTx b.txdata hlen
    (fun tx htx r => readTx_enc tx (htxs tx htx) r)
  simp [readBlock, encodeBlock, List.append_assoc, h1, h2]

/-- Decode inverts encode for transactions (helper shared by C3 and C9). -/
theorem deserializeTx_serializeTx (tx : Transaction) (h : tx.wf) :
    deserializeTx (serializeTx tx) = some tx := by
  have hr := readTx_enc tx h []
  rw [List.append_nil] at hr
  simp [deserializeTx, serializeTx, hr]

/-- Decode inverts encode for blocks (helper shared by C3 and C9). -/
theorem deserializeBlock_serializeBlock (b : Block) (h : b.wf) :
    deserializeBlock (serializeBlock b) = some b := by
  have hr := readBlock_enc b h []
  rw [List.append_nil] at hr
  simp [deserializeBlock, serializeBlock, hr]

/-- C3: decoding the encoding of a block under the consensus wire format
yields the block again, and likewise for transactions:
`decode(encode(x)) == x`. -/
theorem decode_encode_roundtrip (b : Block) (tx : Transaction)
    (hb : b.wf) (htx : tx.wf) :
    deserializeBlock (serializeBlock b) = some b ∧
      deserializeTx (serializeTx tx) = some tx :=
  ⟨deserializeBlock_serializeBlock b hb, deserializeTx_serializeTx tx htx⟩

/-- A concrete transaction with one input and one output, used by
witnesses. -/
def wTx : Transaction :=
  { version := 1, lock_time := 0,
    input := [{ previous_output := { txid := List.replicate 32 0, vout := 0 },
                script_sig := [81], sequence := 4294967295 }],
    output := [{ value := 5000000000, script_pubkey := [81, 82] }] }

/-- A concrete block carrying `wTx`, used by witnesses. -/
def wBlock : Block :=
  { header := { version := 1, prev_blockhash := List.replicate 32 0,
                merkle_root := List.replicate 32 7, time := 1231006505,
                bits := 486604799, nonce := 2083236893 },
    txdata := [wTx] }

/-- C3 witness: the round trip evaluated on the concrete block `wBlock` and
transaction `wTx`. -/
theorem decode_encode_roundtrip_witness :
    wBlock.wf ∧ wTx.wf ∧
      (deserializeBlock (serializeBlock wBlock) = some wBlock ∧
        deserializeTx (serializeTx wTx) = some wTx) :=
  ⟨by decide, by decide, decode_encode_roundtrip wBlock wTx (by decide) (by decide)⟩

/-! ## `src/actors/storage.rs` — the storage actor -/

/-- `Handler<StoreBlock> for StorageActor` (`src/actors/storage.rs` lines
37–49): compute `msg.block.block_hash()`, serialize the block with the
consensus codec, and store the bytes under the hash in the blocks region.
The hash function (double SHA-256 of the header, computed by the external
`bitcoin` crate) is a parameter of the embedding; what matters here is that
the handler derives the key by applying it to the stored block itself. -/
def StorageActor.handleStoreBlock (block_hash : Block → Bytes) (st : Storage)
    (block : Block) : Except StorageError Storage :=
  st.store_block (block_hash block) (serializeBlock block)

/-- `Handler<GetBlock> for StorageActor` (`src/actors/storage.rs` lines
51–68): read the stored bytes; absent key is `Ok(None)`; stored bytes that
fail to decode are a `Serialization` error. -/
def StorageActor.handleGetBlock (st : Storage) (hash : Bytes) :
    Except StorageError (Option Block) :=
  match st.get_block hash with
  | .error e => .error e
  | .ok (some block_data) =>
    match deserializeBlock block_data with
    | some block => .ok (some block)
    | none => .error (.Serialization "deserialize failed")
  | .ok none => .ok none

/-- `Handler<AddTransaction> for StorageActor` (`src/actors/storage.rs`
lines 70–82): compute `msg.tx.txid()` (a parameter of the embedding, as for
blocks), serialize, and store under the txid in the transactions region. -/
def StorageActor.handleAddTransaction (txid : Transaction → Bytes)
    (st : Storage) (tx : Transaction) : Except StorageError Storage :=
  st.store_transaction (txid tx) (serializeTx tx)

/-- `Handler<GetTransaction> for StorageActor` (`src/actors/storage.rs`
lines 84–101): read the stored bytes; absent key is `Ok(None)`; stored bytes
that fail to decode are a `Serialization` error. -/
def StorageActor.handleGetTransaction (st : Storage) (txid : Bytes) :
    Except StorageError (Option Transaction) :=
  match st.get_transaction txid with
  | .error e => .error e
  | .ok (some tx_data) =>
    match deserializeTx tx_data with
    | some tx => .ok (some tx)
    | none => .error (.Serialization "deserialize failed")
  | .ok none => .ok none

/-- C9: the storage actor keys each persisted entity by the hash computed
from the entity itself: for every hash function, storing a block and then
fetching under that block's own hash (with no intervening write) returns the
block, and likewise for transactions under their txid. -/
theorem actor_store_then_get_returns_entity (block_hash : Block → Bytes)
    (txid : Transaction → Bytes) (st : Storage) (b : Block)
    (tx : Transaction) (hb : b.wf) (htx : tx.wf) :
    (∃ st' : Storage, StorageActor.handleStoreBlock block_hash st b = .ok st' ∧
        StorageActor.handleGetBlock st' (block_hash b) = .ok (some b)) ∧
      (∃ st' : Storage, StorageActor.handleAddTransaction txid st tx = .ok st' ∧
        StorageActor.handleGetTransaction st' (txid tx) = .ok (some tx)) := by
  constructor
  · refine ⟨{ db := fun c k => if c = CF_BLOCKS ∧ k = block_hash b then some (serializeBlock b) else st.db c k }, ?_, ?_⟩
    · simp [StorageActor.handleStoreBlock, Storage.store_block, Storage.put,
        Storage.get_cf, columnFamilyNames]
    · simp [StorageActor.handleGetBlock, Storage.get_block, Storage.get,
        Storage.get_cf, columnFamilyNames,
        deserializeBlock_serializeBlock b hb]
  · refine ⟨{ db := fun c k => if c = CF_TRANSACTIONS ∧ k = txid tx then some (serializeTx tx) else st.db c k }, ?_, ?_⟩
    · simp [StorageActor.handleAddTransaction, Storage.store_transaction,
        Storage.put, Storage.get_cf, columnFamilyNames]
    · simp [StorageActor.handleGetTransaction, Storage.get_transaction,
        Storage.get, Storage.get_cf, columnFamilyNames,
        deserializeTx_serializeTx tx htx]

/-- C9 witness: the store-then-fetch round trip evaluated on `wBlock` and
`wTx` with a concrete keying function. -/
theorem actor_store_then_get_returns_entity_witness :
    (∃ st' : Storage, StorageActor.handleStoreBlock (fun _ => [1])
          Storage.empty wBlock = .ok st' ∧
        StorageActor.handleGetBlock st' [1] = .ok (some wBlock)) ∧
      (∃ st' : Storage, StorageActor.handleAddTransaction (fun _ => [2])
          Storage.empty wTx = .ok st' ∧
        StorageActor.handleGetTransaction st' [2] = .ok (some wTx)) :=
  actor_store_then_get_returns_entity (fun _ => [1]) (fun _ => [2])
    Storage.empty wBlock wTx (by decide) (by decide)

/-- C5: a stored blob that fails to decode makes `GetBlock` (resp.
`GetTransaction`) return a `Serialization` (corruption) error, while an
absent key returns `Ok(None)` — and the two outcomes are distinct. -/
theorem corrupt_blob_error_distinct_from_not_found (st stt : Storage)
    (hkey tkey bbs tbs : Bytes)
    (hb : st.db CF_BLOCKS hkey = some bbs)
    (hbbad : deserializeBlock bbs = none)
    (ht : stt.db CF_TRANSACTIONS tkey = some tbs)
    (htbad : deserializeTx tbs = none) :
    (StorageActor.handleGetBlock st hkey =
        .error (.Serialization "deserialize failed") ∧
      ∀ (s2 : Storage) (k2 : Bytes), s2.db CF_BLOCKS k2 = none →
        StorageActor.handleGetBlock s2 k2 = .ok none ∧
          StorageActor.handleGetBlock st hkey ≠
            StorageActor.handleGetBlock s2 k2) ∧
      (StorageActor.handleGetTransaction stt tkey =
          .error (.Serialization "deserialize failed") ∧
        ∀ (s2 : Storage) (k2 : Bytes), s2.db CF_TRANSACTIONS k2 = none →
          StorageActor.handleGetTransaction s2 k2 = .ok none ∧
            StorageActor.handleGetTransaction stt tkey ≠
              StorageActor.handleGetTransaction s2 k2) := by
  have hbk : StorageActor.handleGetBlock st hkey =
      .error (.Serialization "deserialize failed") := by
    simp [StorageActor.handleGetBlock, Storage.get_block, Storage.get,
      Storage.get_cf, columnFamilyNames, hb, hbbad]
  have htk : StorageActor.handleGetTransaction stt tkey =
      .error (.Serialization "deserialize failed") := by
    simp [StorageActor.handleGetTransaction, Storage.get_transaction,
      Storage.get, Storage.get_cf, columnFamilyNames, ht, htbad]
  refine ⟨⟨hbk, fun s2 k2 h2 => ?_⟩, ⟨htk, fun s2 k2 h2 => ?_⟩⟩
  · have : StorageActor.handleGetBlock s2 k2 = .ok none := by
      simp [StorageActor.handleGetBlock, Storage.get_block, Storage.get,
        Storage.get_cf, columnFamilyNames, h2]
    refine ⟨this, ?_⟩
    rw [hbk, this]
    simp
  · have : StorageActor.handleGetTransaction s2 k2 = .ok none := by
      simp [StorageActor.handleGetTransaction, Storage.get_transaction,
        Storage.get, Storage.get_cf, columnFamilyNames, h2]
    refine ⟨this, ?_⟩
    rw [htk, this]
    simp

/-- A store holding one undecodable (empty) blob under block key `[1]`. -/
def corruptBlockStore : Storage :=
  { db := fun c k => if c = CF_BLOCKS ∧ k = [1] then some [] else none }

/-- A store holding one undecodable (empty) blob under transaction key
`[2]`. -/
def corruptTxStore : Storage :=
  { db := fun c k => if c = CF_TRANSACTIONS ∧ k = [2] then some [] else none }

/-- C5 witness: the corrupt-versus-absent distinction evaluated on concrete
stores whose single blob is the empty byte string (which decodes as
neither a block nor a transaction). -/
theorem corrupt_blob_error_distinct_from_not_found_witness :
    (StorageActor.handleGetBlock corruptBlockStore [1] =
        .error (.Serialization "deserialize failed") ∧
      ∀ (s2 : Storage) (k2 : Bytes), s2.db CF_BLOCKS k2 = none →
        StorageActor.handleGetBlock s2 k2 = .ok none ∧
          StorageActor.handleGetBlock corruptBlockStore [1] ≠
            StorageActor.handleGetBlock s2 k2) ∧
      (StorageActor.handleGetTransaction corruptTxStore [2] =
          .error (.Serialization "deserialize failed") ∧
        ∀ (s2 : Storage) (k2 : Bytes), s2.db CF_TRANSACTIONS k2 = none →
          StorageActor.handleGetTransaction s2 k2 = .ok none ∧
            StorageActor.handleGetTransaction corruptTxStore [2] ≠
              StorageActor.handleGetTransaction s2 k2) :=
  corrupt_blob_error_distinct_from_not_found corruptBlockStore corruptTxStore
    [1] [2] [] [] (by simp [corruptBlockStore]) rfl
    (by simp [corruptTxStore]) rfl

/-! ## `src/actors/chain.rs` and `src/actors/mempool.rs` — stubbed actors -/

/-- `ChainInfo` from `src/actors/mod.rs`. The Rust `f64` fields are embedded
as rationals (the only values the code ever produces, `1.0`, are exact). -/
structure ChainInfo where
  chain : String
  blocks : Nat
  headers : Nat
  best_block_hash : String
  difficulty : Rat
  median_time : Nat
  verification_progress : Rat
  initial_block_download : Bool
  chain_work : String
  size_on_disk : Nat
  pruned : Bool
deriving DecidableEq

/-- The all-zero hash string the stubbed `GetChainInfo` handler returns. -/
def zeroHashHex : String :=
  "0000000000000000000000000000000000000000000000000000000000000000"

/-- `Handler<StoreBlock> for ChainActor` (`src/actors/chain.rs` lines
33–41): the body is a TODO stub — it logs the hash and returns `Ok(())`
without validating anything or updating any chain state (the actor has no
chain-state field at all, only the unused storage address). -/
def ChainActor.handleStoreBlock (_block : Block) : Except StorageError Unit :=
  .ok ()

/-- `Handler<GetChainInfo> for ChainActor` (`src/actors/chain.rs` lines
43–62): the body is a TODO stub — it returns a constant `ChainInfo` with
`blocks = 0` and an all-zero best block hash, independent of any block ever
submitted. -/
def ChainActor.handleGetChainInfo : Except StorageError ChainInfo :=
  .ok { chain := "regtest", blocks := 0, headers := 0,
        best_block_hash := zeroHashHex, difficulty := 1, median_time := 0,
        verification_progress := 1, initial_block_download := false,
        chain_work := zeroHashHex, size_on_disk := 0, pruned := false }

/-- C1 (divergence witness for the code bug): for every hash function and
every genesis block `G` whose hash rendering differs from the all-zero
string, submitting `G` succeeds, yet `get_chain_info()` reports a best block
hash that is not `hash(G)` — the handler returns the same constant
`ChainInfo` no matter what was submitted, because both handlers are TODO
stubs. (The reported height is 0, which matches the claim only because the
constant is 0.) -/
theorem chain_info_ignores_submitted_block (block_hash : Block → String)
    (G : Block) (hG : block_hash G ≠ zeroHashHex) :
    ChainActor.handleStoreBlock G = .ok () ∧
      ∃ info : ChainInfo, ChainActor.handleGetChainInfo = .ok info ∧
        info.blocks = 0 ∧ info.best_block_hash ≠ block_hash G := by
  refine ⟨rfl, _, rfl, rfl, ?_⟩
  intro h
  exact hG h.symm

/-- C1 witness: evaluated with a concrete hash rendering and the concrete
block `wBlock` (an empty-transaction-list genesis candidate would behave
identically: the handlers never inspect the block). -/
theorem chain_info_ignores_submitted_block_witness :
    ChainActor.handleStoreBlock wBlock = .ok () ∧
      ∃ info : ChainInfo, ChainActor.handleGetChainInfo = .ok info ∧
        info.blocks = 0 ∧ info.best_block_hash ≠ "ff" :=
  chain_info_ignores_submitted_block (fun _ => "ff") wBlock (by decide)

/-- `Handler<AddToMempool> for MempoolActor` (`src/actors/mempool.rs` lines
33–42): the body is a TODO stub — it logs the txid, fee and fee rate from
the message and returns `Ok(())` without validating the transaction or
recording it anywhere (the actor keeps no mempool state; `fee_rate`, a Rust
`f64`, is embedded as a rational). -/
def MempoolActor.handleAddToMempool (_tx : Transaction) (_fee : Nat)
    (_fee_rate : Rat) : Except StorageError Unit :=
  .ok ()

/-- C2 (divergence witness for the code bug): `AddToMempool` returns
`Ok(())` for every submission whatsoever — in particular for a transaction
spending an outpoint already spent by a previously submitted one — and never
returns any error; the actor maintains no mempool state in which a conflict
could even be detected. -/
theorem mempool_admits_every_transaction (tx : Transaction) (fee : Nat)
    (fee_rate : Rat) :
    MempoolActor.handleAddToMempool tx fee fee_rate = .ok () ∧
      ∀ e : StorageError,
        MempoolActor.handleAddToMempool tx fee fee_rate ≠ .error e := by
  exact ⟨rfl, fun e h => by simp [MempoolActor.handleAddToMempool] at h⟩
